import Mathlib

/-!
# Verification of the openclaw observability ingestion pipeline

A shallow embedding of the observability core of the repository:
the tail reader (`tail-reader.ts`), the three line parsers
(`parsers/system-log.ts`, `parsers/cache-trace.ts`, `parsers/session.ts`),
the event-store schema operations (`schema.ts`), the glob matcher of the
watcher (`watcher.ts`) and the orchestrating `ObservabilityIngestor`
(`ingestor.ts`).

Modelling conventions:
* File contents are `List Char`; byte positions are character positions
  (a one-byte-per-character encoding).  All the verified claims are
  insensitive to the UTF-8 multi-byte distinction.
* The JavaScript value universe reachable from `JSON.parse` is the
  inductive `JsVal`.  `JSON.parse` itself, `new Date().toISOString()` and
  `new Date(ms).toISOString()` are external runtime services and are
  passed in as an explicit environment `JsEnv`; `none` returned by the
  `jp` field models a thrown `SyntaxError` (caught by every parser).
* The SQLite database is the pure state `Store`; a failing
  `stmt.run` inside `insertEventsBatch` is modelled by a caller-supplied
  predicate `fail` on the row being inserted.
* `async` methods of the ingestor are state transformers; a thrown
  JavaScript error is an `Except.error` or an explicit error flag.
-/

/-! ## JavaScript string primitives (char-list based, kernel-reducible) -/

/-- Whitespace recognised by `String.prototype.trim`
(the common cases: space, tab, newline, carriage return, form feed,
vertical tab). -/
def isJsWs (c : Char) : Bool :=
  c == ' ' || c == '\t' || c == '\n' || c == '\r' || c == '\x0c' || c == '\x0b'

/-- Model of `line.trim()`. -/
def jsTrim (s : String) : String :=
  (((s.toList.dropWhile isJsWs).reverse.dropWhile isJsWs).reverse).asString

/-- Model of `s.startsWith(pre)`. -/
def strStartsWith (s pre : String) : Bool :=
  pre.toList.isPrefixOf s.toList

/-- Model of `s.endsWith(suf)`. -/
def strEndsWith (s suf : String) : Bool :=
  suf.toList.isSuffixOf s.toList

/-- Model of `s.slice(0, n)` for a string. -/
def jsSlice (s : String) (n : Nat) : String :=
  (s.toList.take n).asString

/-- Model of `text.split("\n")`: JavaScript split semantics, so
`"" ↦ [""]` and a trailing separator yields a trailing `""`. -/
def splitOnNl : List Char → List (List Char)
  | [] => [[]]
  | c :: rest =>
    if c == '\n' then [] :: splitOnNl rest
    else
      match splitOnNl rest with
      | [] => [[c]]
      | seg :: segs => (c :: seg) :: segs

/-- Model of `pattern.split("**")` (leftmost, non-overlapping). -/
def splitOnDoubleStarAux : List Char → List Char → List String
  | [], acc => [acc.reverse.asString]
  | '*' :: '*' :: rest, acc => acc.reverse.asString :: splitOnDoubleStarAux rest []
  | c :: rest, acc => splitOnDoubleStarAux rest (c :: acc)

/-- Model of `pattern.split("**")`. -/
def splitOnDoubleStar (s : String) : List String :=
  splitOnDoubleStarAux s.toList []

/-- Model of `s.replace(/\/$/, "")`: drop one trailing slash. -/
def stripTrailingSlash (s : String) : String :=
  if strEndsWith s "/" then s.toList.dropLast.asString else s

/-- Model of `s.replace(/^\//, "")`: drop one leading slash. -/
def stripLeadingSlash (s : String) : String :=
  match s.toList with
  | '/' :: rest => rest.asString
  | _ => s

/-- Model of `s.toLowerCase()` (ASCII-faithful). -/
def jsToLower (s : String) : String :=
  (s.toList.map Char.toLower).asString

/-! ## The JavaScript value universe produced by `JSON.parse` -/

/-- A JSON value as produced by `JSON.parse`.  Numbers are modelled as
integers: every numeric field the ingestion pipeline inspects
(`seq`, `version`, `logLevelId`, `messageCount`, `timestamp`) is
integral in practice, and no verified claim depends on fractional
values. -/
inductive JsVal where
  | null
  | bool (b : Bool)
  | num (n : Int)
  | str (s : String)
  | arr (xs : List JsVal)
  | obj (fields : List (String × JsVal))

/-- Property lookup `value[k]` on an object; `none` models `undefined`
(also for property access on primitives and arrays).  `JSON.parse`
keeps the last of duplicate keys, so object field lists are assumed
duplicate-free. -/
def fieldsLookup : List (String × JsVal) → String → Option JsVal
  | [], _ => none
  | kv :: rest, k => if kv.1 == k then some kv.2 else fieldsLookup rest k

/-- Property access `value.k`. -/
def getField : JsVal → String → Option JsVal
  | JsVal.obj fields, k => fieldsLookup fields k
  | _, _ => none

/-- Optional-chained property access `o?.k`. -/
def jGetOpt (o : Option JsVal) (k : String) : Option JsVal :=
  o.bind (fun v => getField v k)

/-- JavaScript truthiness of a possibly-`undefined` value. -/
def truthy : Option JsVal → Bool
  | none => false
  | some JsVal.null => false
  | some (JsVal.bool b) => b
  | some (JsVal.num n) => n != 0
  | some (JsVal.str s) => s != ""
  | some (JsVal.arr _) => true
  | some (JsVal.obj _) => true

/-- Model of `value && typeof value === "object"`: a non-null object or
array (the only `typeof === "object"` values `JSON.parse` produces,
with `null` already excluded by the truthiness guard). -/
def isObjLike : JsVal → Bool
  | JsVal.obj _ => true
  | JsVal.arr _ => true
  | _ => false

mutual
/-- JavaScript `String(v)` / template-literal coercion of a defined
value. -/
def jsToString : JsVal → String
  | JsVal.null => "null"
  | JsVal.bool true => "true"
  | JsVal.bool false => "false"
  | JsVal.num n => toString n
  | JsVal.str s => s
  | JsVal.obj _ => "[object Object]"
  | JsVal.arr xs => jsToStringList xs

/-- `Array.prototype.toString`: elements joined with commas. -/
def jsToStringList : List JsVal → String
  | [] => ""
  | [x] => jsArrElemStr x
  | x :: y :: xs => jsArrElemStr x ++ "," ++ jsToStringList (y :: xs)

/-- An array element inside `Array.prototype.toString`
(`null` renders as the empty string there). -/
def jsArrElemStr : JsVal → String
  | JsVal.null => ""
  | v => jsToString v
end

/-- Template-literal coercion of a possibly-`undefined` value
(`undefined` renders as "undefined"). -/
def jsToStringU : Option JsVal → String
  | none => "undefined"
  | some v => jsToString v

/-- Checks `typeof value.k === "string"`. -/
def isStrField (v : JsVal) (k : String) : Bool :=
  match getField v k with
  | some (JsVal.str _) => true
  | _ => false

/-- Checks `typeof value.k === "number"`. -/
def isNumField (v : JsVal) (k : String) : Bool :=
  match getField v k with
  | some (JsVal.num _) => true
  | _ => false

/-- Checks `value.k === s` for a string literal `s`. -/
def isStrEqField (v : JsVal) (k s : String) : Bool :=
  match getField v k with
  | some (JsVal.str t) => t == s
  | _ => false

/-- Model of `value.k && typeof value.k === "string"` returning the
string: a truthy (hence non-empty) string field. -/
def strFieldTruthy (v : JsVal) (k : String) : Option String :=
  match getField v k with
  | some (JsVal.str s) => if s == "" then none else some s
  | _ => none

/-- The `??` operator on possibly-`undefined` values
(`a ?? b`: `b` when `a` is `undefined` or `null`). -/
def jsCoalesce (a b : Option JsVal) : Option JsVal :=
  match a with
  | none => b
  | some JsVal.null => b
  | some v => some v

/-! ## Parsers (`src/observability/parsers/`) -/

/-- Source types for log ingestion (`parsers/index.ts`). -/
inductive SourceType where
  | systemLog
  | cacheTrace
  | session
deriving DecidableEq, BEq

/-- Parsed event ready for database insertion (`parsers/index.ts`).
Fields the TypeScript code passes through from the parsed JSON without a
runtime type check are kept as raw `JsVal`s; fields it computes are
`String`s.  `messagePreview` is a raw value because the cache-trace
parser can slice an untyped `note` into it (an array slices to an
array). -/
structure ParsedEvent where
  ts : JsVal
  sourceType : SourceType
  sourceFile : String
  eventType : String
  level : Option String := none
  sessionId : Option JsVal := none
  agentId : Option String := none
  runId : Option JsVal := none
  provider : Option JsVal := none
  modelId : Option JsVal := none
  role : Option JsVal := none
  messagePreview : Option JsVal := none
  rawJson : String

/-- The external JavaScript runtime services used by the parsers. -/
structure JsEnv where
  /-- `JSON.parse`; `none` models a thrown `SyntaxError`. -/
  jp : String → Option JsVal
  /-- `new Date().toISOString()`. -/
  nowIso : String
  /-- `new Date(v).toISOString()`; `Except.error` models the
  `RangeError` this throws for a date that is out of range or invalid
  (`toISOString` on `new Date(NaN)`). -/
  msToIso : JsVal → Except String String

/-- The call `v?.slice(0, n)`: optional chaining short-circuits on
`undefined` and on `null`; strings and arrays have a `slice` method;
calling it on any other value throws a TypeError. -/
def jsOptSlice : Option JsVal → Nat → Except String (Option JsVal)
  | none, _ => Except.ok none
  | some JsVal.null, _ => Except.ok none
  | some (JsVal.str s), n => Except.ok (some (JsVal.str (jsSlice s n)))
  | some (JsVal.arr xs), n => Except.ok (some (JsVal.arr (xs.take n)))
  | some _, _ => Except.error "TypeError: slice is not a function"

/-- A call `v.toLowerCase()` on a value already known to be truthy:
lower-cases a string and throws a TypeError for any other value
(numbers, booleans, arrays and objects have no `toLowerCase`). -/
def jsToLowerCall : Option JsVal → Except String String
  | some (JsVal.str s) => Except.ok (jsToLower s)
  | _ => Except.error "TypeError: toLowerCase is not a function"

/-- Shape check `isCacheTraceEvent` of `cache-trace.ts`: a non-null
object with string `ts`, numeric `seq` and string `stage`. -/
def isCacheTraceEvent (value : JsVal) : Bool :=
  isObjLike value && isStrField value "ts" && isNumField value "seq"
    && isStrField value "stage"

/-- `parseCacheTraceLine` of `cache-trace.ts`.  `messagePreview` is
assigned the *raw* `note` value when `note` is truthy (the code writes
`messagePreview = entry.note` with no runtime check), else a coerced
`error:` or `messages:` template string; the final
`messagePreview?.slice(0, 500)` call therefore throws a TypeError when
`note` is a truthy value without a `slice` method, and that exception
escapes the function (`Except.error`) - this is the one error path of
the parser, everything else returns `null` or an event. -/
def parseCacheTraceLine (env : JsEnv) (line sourceFile : String) :
    Except String (Option ParsedEvent) :=
  let trimmed := jsTrim line
  if trimmed == "" || !(strStartsWith trimmed "\x7b") then Except.ok none
  else
    match env.jp trimmed with
    | none => Except.ok none
    | some entry =>
      if !(isCacheTraceEvent entry) then Except.ok none
      else
        let messagePreview : Option JsVal :=
          if truthy (getField entry "note") then getField entry "note"
          else if truthy (getField entry "error") then
            some (JsVal.str ("error: " ++ jsToStringU (getField entry "error")))
          else if (getField entry "messageCount").isSome then
            some (JsVal.str
              ("messages: " ++ jsToStringU (getField entry "messageCount")))
          else none
        match jsOptSlice messagePreview 500 with
        | Except.error msg => Except.error msg
        | Except.ok preview =>
          Except.ok (some
            { ts := (getField entry "ts").getD JsVal.null
              sourceType := SourceType.cacheTrace
              sourceFile := sourceFile
              eventType := "cache:" ++ jsToStringU (getField entry "stage")
              sessionId := getField entry "sessionId"
              runId := getField entry "runId"
              provider := getField entry "provider"
              modelId := getField entry "modelId"
              messagePreview := preview
              rawJson := trimmed })

/-- The tslog numeric level table `LOG_LEVEL_MAP` of `system-log.ts`. -/
def LOG_LEVEL_MAP (n : Int) : Option String :=
  if n == 0 then some "silly"
  else if n == 1 then some "trace"
  else if n == 2 then some "debug"
  else if n == 3 then some "info"
  else if n == 4 then some "warn"
  else if n == 5 then some "error"
  else if n == 6 then some "fatal"
  else none

/-- `extractLogLevel` of `system-log.ts`.  The first two branches call
`.toLowerCase()` on the raw field value (only guarded by truthiness),
so a truthy non-string `logLevelName` throws a TypeError that escapes
the function. -/
def extractLogLevel (entry : JsVal) : Except String (Option String) :=
  let meta := getField entry "_meta"
  if truthy (jGetOpt meta "logLevelName") then
    (jsToLowerCall (jGetOpt meta "logLevelName")).map some
  else if truthy (getField entry "logLevelName") then
    (jsToLowerCall (getField entry "logLevelName")).map some
  else
    match jsCoalesce (jGetOpt meta "logLevelId") (getField entry "logLevel") with
    | some (JsVal.num n) => Except.ok (LOG_LEVEL_MAP n)
    | _ => Except.ok none

/-- `extractTimestamp` of `system-log.ts` (fallback: current time). -/
def extractTimestamp (env : JsEnv) (entry : JsVal) : JsVal :=
  let meta := getField entry "_meta"
  if truthy (jGetOpt meta "date") then (jGetOpt meta "date").getD JsVal.null
  else
    match strFieldTruthy entry "date" with
    | some s => JsVal.str s
    | none => JsVal.str env.nowIso

/-- `extractMessage` of `system-log.ts`. -/
def extractMessage (entry : JsVal) : Option String :=
  match strFieldTruthy entry "message" with
  | some s => some s
  | none =>
    match strFieldTruthy entry "msg" with
    | some s => some s
    | none =>
      match getField entry "0" with
      | some (JsVal.str s) => some s
      | some firstArg =>
        if isObjLike firstArg then
          match getField firstArg "message" with
          | some (JsVal.str t) => some t
          | _ => none
        else none
      | none => none

/-- `extractSubsystem` of `system-log.ts`. -/
def extractSubsystem (entry : JsVal) : Option String :=
  let meta := getField entry "_meta"
  if truthy (jGetOpt meta "name") then
    some (jsToString ((jGetOpt meta "name").getD JsVal.null))
  else strFieldTruthy entry "subsystem"

/-- `parseSystemLogLine` of `system-log.ts`.  A TypeError thrown by
`extractLogLevel` (truthy non-string `logLevelName`) escapes the
function; `message?.slice(0, 500)` never throws because
`extractMessage` only returns `typeof`-checked strings. -/
def parseSystemLogLine (env : JsEnv) (line sourceFile : String) :
    Except String (Option ParsedEvent) :=
  let trimmed := jsTrim line
  if trimmed == "" || !(strStartsWith trimmed "\x7b") then Except.ok none
  else
    match env.jp trimmed with
    | none => Except.ok none
    | some entry =>
      if !(isObjLike entry) then Except.ok none
      else
        match extractLogLevel entry with
        | Except.error msg => Except.error msg
        | Except.ok level =>
          let subsystem := extractSubsystem entry
          let eventType :=
            match subsystem with
            | some s => if s == "" then "log" else "log:" ++ s
            | none => "log"
          Except.ok (some
            { ts := extractTimestamp env entry
              sourceType := SourceType.systemLog
              sourceFile := sourceFile
              eventType := eventType
              level := level
              messagePreview := (extractMessage entry).map
                (fun s => JsVal.str (jsSlice s 500))
              rawJson := trimmed })

/-- `isSessionHeader` of `session.ts`. -/
def isSessionHeader (value : JsVal) : Bool :=
  isObjLike value && isStrEqField value "type" "session"
    && isNumField value "version" && isStrField value "id"

/-- `isSessionMessage` of `session.ts`: `type === "message"` with a
non-null object `message`. -/
def isSessionMessage (value : JsVal) : Bool :=
  isObjLike value && isStrEqField value "type" "message"
    && (match getField value "message" with
        | some m => isObjLike m
        | none => false)

/-- `extractTextPreview`'s loop over content blocks: the first block
that is an object with `type === "text"` and a string `text`. -/
def findTextBlock : List JsVal → Option String
  | [] => none
  | b :: rest =>
    if isObjLike b then
      match getField b "type", getField b "text" with
      | some (JsVal.str "text"), some (JsVal.str t) => some (jsSlice t 500)
      | _, _ => findTextBlock rest
    else findTextBlock rest

/-- `extractTextPreview` of `session.ts`. -/
def extractTextPreview : Option JsVal → Option String
  | some (JsVal.str s) => some (jsSlice s 500)
  | some (JsVal.arr blocks) => findTextBlock blocks
  | _ => none

/-- The regex probe of `extractAgentIdFromPath` at one position:
does the path continue as `agents/<seg>/sessions/` here? -/
def agentsSegmentAt (cs : List Char) : Option String :=
  if "agents/".toList.isPrefixOf cs then
    let rest := cs.drop 7
    let seg := rest.takeWhile (fun c => c != '/')
    let rest2 := rest.dropWhile (fun c => c != '/')
    if seg.length > 0 && "/sessions/".toList.isPrefixOf rest2 then
      some seg.asString
    else none
  else none

/-- Leftmost match of the regex `agents\/([^/]+)\/sessions\//`. -/
def findAgentsSegment : List Char → Option String
  | [] => agentsSegmentAt []
  | c :: rest =>
    match agentsSegmentAt (c :: rest) with
    | some s => some s
    | none => findAgentsSegment rest

/-- `extractAgentIdFromPath` of `session.ts`. -/
def extractAgentIdFromPath (sourceFile : String) : Option String :=
  findAgentsSegment sourceFile.toList

/-- `parseSessionLine` of `session.ts`.  In the message branch a
`RangeError` thrown by `new Date(msg.timestamp).toISOString()` (the
`msToIso` service) escapes the function; the text preview only slices
`typeof`-checked strings and never throws. -/
def parseSessionLine (env : JsEnv) (line sourceFile : String) :
    Except String (Option ParsedEvent) :=
  let trimmed := jsTrim line
  if trimmed == "" || !(strStartsWith trimmed "\x7b") then Except.ok none
  else
    match env.jp trimmed with
    | none => Except.ok none
    | some entry =>
      if !(isObjLike entry) || !(truthy (getField entry "type")) then
        Except.ok none
      else
        let agentId := extractAgentIdFromPath sourceFile
        if isSessionHeader entry then
          Except.ok (some
            { ts := (getField entry "timestamp").getD JsVal.null
              sourceType := SourceType.session
              sourceFile := sourceFile
              eventType := "session:start"
              sessionId := getField entry "id"
              agentId := agentId
              rawJson := trimmed })
        else if isSessionMessage entry then
          let msg := (getField entry "message").getD JsVal.null
          match (if truthy (getField msg "timestamp") then
                   env.msToIso ((getField msg "timestamp").getD JsVal.null)
                 else Except.ok env.nowIso) with
          | Except.error m => Except.error m
          | Except.ok tsStr =>
            Except.ok (some
              { ts := JsVal.str tsStr
                sourceType := SourceType.session
                sourceFile := sourceFile
                eventType := "session:message:"
                  ++ jsToStringU (getField msg "role")
                sessionId := none
                agentId := agentId
                provider := getField msg "provider"
                modelId := getField msg "model"
                role := getField msg "role"
                messagePreview := (extractTextPreview
                  (getField msg "content")).map JsVal.str
                rawJson := trimmed })
        else
          Except.ok (some
            { ts := JsVal.str env.nowIso
              sourceType := SourceType.session
              sourceFile := sourceFile
              eventType := "session:" ++ jsToStringU (getField entry "type")
              agentId := agentId
              rawJson := trimmed })

/-- Log parser interface (`parsers/index.ts`).  `parseLine` returns an
event or `null`; `Except.error` models an exception it throws (the
interface declares none, but the implementations can throw, see the
individual parsers). -/
structure LogParser where
  sourceType : SourceType
  parseLine : String → String → Except String (Option ParsedEvent)

/-- `systemLogParser` of `system-log.ts`. -/
def systemLogParser (env : JsEnv) : LogParser :=
  { sourceType := SourceType.systemLog, parseLine := parseSystemLogLine env }

/-- `cacheTraceParser` of `cache-trace.ts`. -/
def cacheTraceParser (env : JsEnv) : LogParser :=
  { sourceType := SourceType.cacheTrace, parseLine := parseCacheTraceLine env }

/-- `sessionParser` of `session.ts`. -/
def sessionParser (env : JsEnv) : LogParser :=
  { sourceType := SourceType.session, parseLine := parseSessionLine env }

/-- `getParser` of `parsers/index.ts` (the `PARSERS` registry lookup;
the registry is total, so the throwing branch is unreachable). -/
def getParser (env : JsEnv) : SourceType → LogParser
  | SourceType.systemLog => systemLogParser env
  | SourceType.cacheTrace => cacheTraceParser env
  | SourceType.session => sessionParser env

/-- `parseLines` of `parsers/index.ts`: parse every line, keeping only
the non-null results.  The loop has no try/catch, so an exception
thrown by `parseLine` aborts it and propagates to the caller,
discarding the events gathered so far. -/
def parseLines (p : LogParser) (lines : List String) (sourceFile : String) :
    Except String (List ParsedEvent) :=
  match lines with
  | [] => Except.ok []
  | l :: rest =>
    match p.parseLine l sourceFile with
    | Except.error msg => Except.error msg
    | Except.ok none => parseLines p rest sourceFile
    | Except.ok (some e) =>
      (parseLines p rest sourceFile).map (fun es => e :: es)

/-! ## Tail reader (`tail-reader.ts`) -/

/-- Default `maxBytes` of `readLogSlice`. -/
def DEFAULT_MAX_BYTES : Nat := 1000000

/-- Result of `readLogSlice` (`TailReadResult` in `tail-reader.ts`). -/
structure TailReadResult where
  cursor : Nat
  size : Nat
  lines : List String
  truncated : Bool
  reset : Bool
deriving DecidableEq

/-- Lines 84-108 of `tail-reader.ts`, parameterised by the computed
start offset: read `content[start..size)`, split on newlines, drop the
leading fragment when the byte before `start` is not a newline, and
drop a trailing empty segment produced by the split. -/
def completeLinesFrom (cs : List Char) (start : Nat) : List String :=
  let text := cs.drop start
  let ls := (splitOnNl text).map List.asString
  let ls :=
    if start > 0 && ((cs.get? (start - 1)) != some '\n') then ls.drop 1
    else ls
  if ls.length > 0 && ls.getLast? == some "" then ls.dropLast else ls

/-- The tail of `readLogSlice` after `start`, `reset` and `truncated`
are fixed: the `size === 0 || size <= start` early return, otherwise
the actual read. -/
def sliceResult (cs : List Char) (size start : Nat) (truncated reset : Bool) :
    TailReadResult :=
  if size = 0 ∨ size ≤ start then
    { cursor := size, size := size, lines := [], truncated := truncated,
      reset := reset }
  else
    { cursor := size, size := size, lines := completeLinesFrom cs start,
      truncated := truncated, reset := reset }

/-- Lines 54-72 of `readLogSlice`: pick the read start and the `reset`
and `truncated` flags from the (already normalised) cursor, then read. -/
def readLogSliceAt (cs : List Char) (maxBytes : Nat) :
    Option Nat → TailReadResult
  | some c =>
    if c > cs.length then
      sliceResult cs cs.length 0 false true
    else if cs.length - c > maxBytes then
      sliceResult cs cs.length (cs.length - maxBytes) true true
    else
      sliceResult cs cs.length c false false
  | none =>
    sliceResult cs cs.length (cs.length - maxBytes)
      ((cs.length - maxBytes) > 0) false

/-- `readLogSlice` of `tail-reader.ts`.  `content` is the file's bytes
(`none`: the file does not exist, the `fs.stat` catch branch);
`cursorParam` is the optional caller cursor, normalised with
`Math.max(0, Math.floor(cursor))`. -/
def readLogSlice (content : Option (List Char)) (cursorParam : Option Int)
    (maxBytes : Nat) : TailReadResult :=
  match content with
  | none =>
    { cursor := 0, size := 0, lines := [], truncated := false, reset := false }
  | some cs =>
    readLogSliceAt cs maxBytes (cursorParam.map (fun c => (max 0 c).toNat))

/-- Result of `readNewLines` in `tail-reader.ts`. -/
structure NewLinesResult where
  lines : List String
  newCursor : Nat
  fileSize : Nat
  reset : Bool
deriving DecidableEq

/-- `readNewLines` of `tail-reader.ts`: the incremental-read wrapper
around `readLogSlice`. -/
def readNewLines (content : Option (List Char)) (cursor : Nat)
    (maxBytes : Nat) : NewLinesResult :=
  let result := readLogSlice content (some (Int.ofNat cursor)) maxBytes
  { lines := result.lines, newCursor := result.cursor,
    fileSize := result.size, reset := result.reset }

/-! ## Event store schema (`schema.ts`) -/

/-- A row of the `tracked_files` table. -/
structure TrackedRow where
  sourceType : SourceType
  byteOffset : Nat
  lastSeenAt : Nat
  fileSize : Nat
deriving DecidableEq

/-- A row of the `events` table (minus the autoincrement id). -/
structure DbEvent where
  ts : JsVal
  sourceType : SourceType
  sourceFile : String
  eventType : String
  level : Option String
  sessionId : Option JsVal
  agentId : Option String
  runId : Option JsVal
  provider : Option JsVal
  modelId : Option JsVal
  role : Option JsVal
  messagePreview : Option JsVal
  rawJson : String
  ingestedAt : Nat

/-- The observability database: the two tables created by
`ensureObservabilitySchema`.  `tracked` is keyed by path. -/
structure Store where
  events : List DbEvent
  tracked : List (String × TrackedRow)

/-- `getTrackedFile` of `schema.ts`: the stored byte offset and file
size for a path. -/
def getTrackedFile (db : Store) (filePath : String) : Option (Nat × Nat) :=
  (db.tracked.find? (fun kv => kv.1 == filePath)).map
    (fun kv => (kv.2.byteOffset, kv.2.fileSize))

/-- The full tracked row for a path (used to state properties about
`lastSeenAt`, which `getTrackedFile` does not select). -/
def getTrackedRow (db : Store) (filePath : String) : Option TrackedRow :=
  (db.tracked.find? (fun kv => kv.1 == filePath)).map (fun kv => kv.2)

/-- The `ON CONFLICT(path) DO UPDATE` upsert on the keyed list. -/
def upsertTracked : List (String × TrackedRow) → String → TrackedRow →
    List (String × TrackedRow)
  | [], p, r => [(p, r)]
  | kv :: rest, p, r =>
    if kv.1 == p then (p, r) :: rest else kv :: upsertTracked rest p r

/-- `updateTrackedFile` of `schema.ts`: insert-or-update the tracking
record, unconditionally overwriting offset, size and seen-time
(`now` is the `Date.now()` read inside the function). -/
def updateTrackedFile (now : Nat) (db : Store) (p : String)
    (sourceType : SourceType) (byteOffset fileSize : Nat) : Store :=
  let row : TrackedRow :=
    { sourceType := sourceType, byteOffset := byteOffset,
      lastSeenAt := now, fileSize := fileSize }
  { db with tracked := upsertTracked db.tracked p row }

/-- The row written for one event by the insert statement of
`insertEventsBatch` (the `ingested_at` column is the `Date.now()` read
once per batch call). -/
def toDbRow (now : Nat) (e : ParsedEvent) : DbEvent :=
  { ts := e.ts, sourceType := e.sourceType, sourceFile := e.sourceFile,
    eventType := e.eventType, level := e.level, sessionId := e.sessionId,
    agentId := e.agentId, runId := e.runId, provider := e.provider,
    modelId := e.modelId, role := e.role,
    messagePreview := e.messagePreview, rawJson := e.rawJson,
    ingestedAt := now }

/-- `insertEventsBatch` of `schema.ts`: empty batches are a no-op; the
batch runs in one `BEGIN`/`COMMIT` transaction, and if any row's
`stmt.run` throws (modelled by `fail`), the transaction is rolled back,
leaving the store unchanged, and the error propagates (the `true`
flag). -/
def insertEventsBatch (fail : ParsedEvent → Bool) (now : Nat)
    (events : List ParsedEvent) (db : Store) : Store × Bool :=
  if events.isEmpty then (db, false)
  else if events.any fail then (db, true)
  else ({ db with events := db.events ++ events.map (toDbRow now) }, false)

/-! ## Watcher pattern matching (`watcher.ts`) -/

/-- Configuration for a watched path (`watcher.ts`). -/
structure WatchedPath where
  pattern : String
  sourceType : SourceType

/-- One step of the anchored regex built by `matchesPattern` for
single-`*` patterns: each `*` becomes `[^/]*`, every other character is
matched literally (the escaping in the source makes regex metacharacters
literal).  Fuel-based so that the definition is structurally recursive
and kernel-reducible; `globSegMatch` supplies sufficient fuel. -/
def globSegMatchAux : Nat → List Char → List Char → Bool
  | 0, _, _ => false
  | _ + 1, [], s => s.isEmpty
  | fuel + 1, '*' :: ps, s =>
    globSegMatchAux fuel ps s ||
      (match s with
       | [] => false
       | c :: cs => c != '/' && globSegMatchAux fuel ('*' :: ps) cs)
  | fuel + 1, p :: ps, s =>
    match s with
    | [] => false
    | c :: cs => p == c && globSegMatchAux fuel ps cs

/-- Full-match test of the single-`*` regex of `matchesPattern`. -/
def globSegMatch (p s : List Char) : Bool :=
  globSegMatchAux (p.length + s.length + 1) p s

/-- `matchesPattern` of `watcher.ts`: exact paths (or a path inside an
exact directory), then `**` patterns via literal prefix/suffix
comparison, then single-`*` patterns via the anchored regex. -/
def matchesPattern (filePath pat : String) : Bool :=
  if !(pat.toList.contains '*') then
    filePath == pat || strStartsWith filePath (pat ++ "/")
  else if (splitOnDoubleStar pat).length ≥ 2 then
    let parts := splitOnDoubleStar pat
    let pre := stripTrailingSlash (parts.headD "")
    let suf := stripLeadingSlash (parts.getD 1 "")
    (pre == "" || strStartsWith filePath pre)
      && (suf == "" || strEndsWith filePath suf)
  else
    globSegMatch pat.toList filePath.toList

/-- First-match classification of a path against the watched-path
descriptors (the loop shared by `resolveSourceType` in `watcher.ts` and
`getSourceTypeForFile` in `ingestor.ts`). -/
def findSourceType : List WatchedPath → String → Option SourceType
  | [], _ => none
  | wp :: rest, fp =>
    if matchesPattern fp wp.pattern then some wp.sourceType
    else findSourceType rest fp

/-- `getDefaultWatchedPaths` of `ingestor.ts` (`path.join` with the
POSIX separator). -/
def getDefaultWatchedPaths (stateDir : String) : List WatchedPath :=
  [ { pattern := stateDir ++ "/agents/**/sessions/*.jsonl",
      sourceType := SourceType.session },
    { pattern := stateDir ++ "/logs/cache-trace.jsonl",
      sourceType := SourceType.cacheTrace },
    { pattern := "/tmp/openclaw/openclaw-*.log",
      sourceType := SourceType.systemLog } ]

/-! ## Ingestor (`ingestor.ts`) -/

/-- Default insert batch size. -/
def DEFAULT_BATCH_SIZE : Nat := 100

/-- The event kinds delivered by the file watcher. -/
inductive FileEventKind where
  | add
  | change
  | unlink
deriving DecidableEq, BEq

/-- The mutable state of an `ObservabilityIngestor` instance:
configuration (`dbPath`, `watchedPaths`, `batchSize`) and runtime state
(`watching` for `watcher !== null`, `timerSet` for
`ingestTimer !== null`, `processing`, `pendingFiles`, `closed`) plus
the owned database. -/
structure Ingestor where
  dbPath : String
  watchedPaths : List WatchedPath
  batchSize : Nat
  watching : Bool
  pendingFiles : List String
  timerSet : Bool
  processing : Bool
  closed : Bool
  db : Store

/-- The slicing loop of the private `insertEvents` method:
`for (let i = 0; i < dbEvents.length; i += this.batchSize)`.
Fuel-based (`fuel := events.length` suffices for a positive batch size)
so that the definition is structurally recursive. -/
def chunksOfAux (n : Nat) : Nat → List ParsedEvent → List (List ParsedEvent)
  | _, [] => []
  | 0, _ => []
  | fuel + 1, l => l.take n :: chunksOfAux n fuel (l.drop n)

/-- The batches cut by `insertEvents`' slicing loop. -/
def chunksOf (n : Nat) (l : List ParsedEvent) : List (List ParsedEvent) :=
  chunksOfAux n l.length l

/-- The sequence of `insertEventsBatch` calls issued by `insertEvents`:
each batch commits independently; the first throwing batch aborts the
remaining calls, but the batches already committed stay in the
database. -/
def insertEventsGo (fail : ParsedEvent → Bool) (now : Nat) :
    List (List ParsedEvent) → Store → Store × Bool
  | [], db => (db, false)
  | batch :: rest, db =>
    match insertEventsBatch fail now batch db with
    | (db2, true) => (db2, true)
    | (db2, false) => insertEventsGo fail now rest db2

/-- The private `insertEvents` method of `ObservabilityIngestor`
(the field-for-field `dbEvents` conversion at its head is the identity
in this model). -/
def insertEvents (fail : ParsedEvent → Bool) (now : Nat) (batchSize : Nat)
    (events : List ParsedEvent) (db : Store) : Store × Bool :=
  insertEventsGo fail now (chunksOf batchSize events) db

/-- `ObservabilityIngestor.ingestFile`: read from the stored cursor,
parse, batch-insert, then upsert the tracking record.  Returns the new
state, the event count, and whether an error propagated out of the
pass (in which case the tracking record is not updated): either an
exception thrown while parsing - nothing is persisted then - or an
insert failure.  On a closed instance it returns `0` without touching
anything. -/
def Ingestor.ingestFile (env : JsEnv) (fail : ParsedEvent → Bool) (now : Nat)
    (content : Option (List Char)) (filePath : String)
    (sourceType : SourceType) (s : Ingestor) : Ingestor × Nat × Bool :=
  if s.closed then (s, 0, false)
  else
    let cursor := (((getTrackedFile s.db filePath).map Prod.fst).getD 0)
    let r := readNewLines content cursor DEFAULT_MAX_BYTES
    if r.lines.isEmpty then (s, 0, false)
    else
      let parser := getParser env sourceType
      match parseLines parser r.lines filePath with
      | Except.error _ => (s, 0, true)
      | Except.ok events =>
        let ins :=
          if events.length > 0 then
            insertEvents fail now s.batchSize events s.db
          else (s.db, false)
        if ins.2 then ({ s with db := ins.1 }, 0, true)
        else
          let db2 := updateTrackedFile now ins.1 filePath sourceType
            r.newCursor r.fileSize
          ({ s with db := db2 }, events.length, false)

/-- `ObservabilityIngestor.getSourceTypeForFile`. -/
def Ingestor.getSourceTypeForFile (s : Ingestor) (filePath : String) :
    Option SourceType :=
  findSourceType s.watchedPaths filePath

/-- Membership in the `pendingFiles` set (`Set.has`). -/
def memStr (p : String) : List String → Bool
  | [] => false
  | q :: rest => q == p || memStr p rest

/-- `Set.add` on the insertion-ordered pending set. -/
def insertSet (p : String) (l : List String) : List String :=
  if memStr p l then l else l ++ [p]

/-- `ObservabilityIngestor.scheduleIngest`: arm the debounce timer
unless one is already armed. -/
def Ingestor.scheduleIngest (s : Ingestor) : Ingestor :=
  if s.timerSet then s else { s with timerSet := true }

/-- `ObservabilityIngestor.onFileChange`: drop `unlink` events,
otherwise enqueue the path and schedule a debounced ingest. -/
def Ingestor.onFileChange (e : FileEventKind) (p : String) (s : Ingestor) :
    Ingestor :=
  if e == FileEventKind.unlink then s
  else Ingestor.scheduleIngest { s with pendingFiles := insertSet p s.pendingFiles }

/-- The debounce timer firing: the callback clears `ingestTimer` and
enters `processPendingFiles`, whose prologue runs synchronously up to
the first `await`: bail out (keeping the pending set) when closed or a
pass is already in flight, otherwise set the in-flight flag and drain
the entire pending set as this pass's batch (`some batch`). -/
def Ingestor.timerFireBegin (s : Ingestor) : Ingestor × Option (List String) :=
  let s1 := { s with timerSet := false }
  if s1.closed || s1.processing then (s1, none)
  else ({ s1 with processing := true, pendingFiles := [] }, some s1.pendingFiles)

/-- The per-file loop in the body of `processPendingFiles`: stop when
closed, skip files matching no descriptor, ingest the rest, swallowing
(logging) per-file errors.  Returns the files actually handed to
`ingestFile`, in order.  `fs` supplies each file's current content. -/
def Ingestor.runPass (env : JsEnv) (fail : ParsedEvent → Bool) (now : Nat)
    (fs : String → Option (List Char)) :
    List String → Ingestor → Ingestor × List String
  | [], s => (s, [])
  | p :: rest, s =>
    if s.closed then (s, [])
    else
      match Ingestor.getSourceTypeForFile s p with
      | none => Ingestor.runPass env fail now fs rest s
      | some sty =>
        let s2 := (Ingestor.ingestFile env fail now (fs p) p sty s).1
        let r := Ingestor.runPass env fail now fs rest s2
        (r.1, p :: r.2)

/-- The `finally` block of `processPendingFiles`: clear the in-flight
flag and, if notifications arrived during the pass, schedule another
debounce cycle. -/
def Ingestor.passFinish (s : Ingestor) : Ingestor :=
  let s1 := { s with processing := false }
  if !(s1.pendingFiles.isEmpty) && !s1.closed then Ingestor.scheduleIngest s1
  else s1

/-- The filesystem environment of `ingestExisting`: resolved initial
files (`resolveWatchedFiles`) and the current content of each path. -/
structure FsEnv where
  contents : String → Option (List Char)
  resolved : List (String × SourceType)

/-- The per-file loop of `ObservabilityIngestor.ingestExisting`:
per-file errors are caught and logged; the aggregate event count sums
the successful passes. -/
def ingestExistingLoop (env : JsEnv) (fail : ParsedEvent → Bool) (now : Nat)
    (fs : FsEnv) : List (String × SourceType) → Ingestor → Ingestor × Nat
  | [], s => (s, 0)
  | f :: rest, s =>
    let step := Ingestor.ingestFile env fail now (fs.contents f.1) f.1 f.2 s
    let r := ingestExistingLoop env fail now fs rest step.1
    (r.1, step.2.1 + r.2)

/-- `ObservabilityIngestor.ingestExisting`: fails fast on a closed
instance, otherwise ingests every resolved file once and reports
`(files, events)` counts. -/
def Ingestor.ingestExisting (env : JsEnv) (fail : ParsedEvent → Bool)
    (now : Nat) (fs : FsEnv) (s : Ingestor) :
    Except String (Ingestor × Nat × Nat) :=
  if s.closed then Except.error "Ingestor is closed"
  else
    let r := ingestExistingLoop env fail now fs fs.resolved s
    Except.ok (r.1, fs.resolved.length, r.2)

/-- `ObservabilityIngestor.startWatching`: fails fast on a closed
instance, is a no-op (with a warning) when already watching, otherwise
runs the initial ingestion and attaches the watcher. -/
def Ingestor.startWatching (env : JsEnv) (fail : ParsedEvent → Bool)
    (now : Nat) (fs : FsEnv) (s : Ingestor) : Except String Ingestor :=
  if s.closed then Except.error "Ingestor is closed"
  else if s.watching then Except.ok s
  else
    let r := ingestExistingLoop env fail now fs fs.resolved s
    Except.ok { r.1 with watching := true }

/-- The read-only snapshot returned by `ObservabilityIngestor.status`. -/
structure IngestorStatusInfo where
  dbPath : String
  watching : Bool
  trackedFiles : Nat
  totalEvents : Nat
  eventsByType : SourceType → Nat

/-- `ObservabilityIngestor.status`: fails fast on a closed instance,
otherwise reports the store counts. -/
def Ingestor.status (s : Ingestor) : Except String IngestorStatusInfo :=
  if s.closed then Except.error "Ingestor is closed"
  else
    Except.ok
      { dbPath := s.dbPath
        watching := s.watching
        trackedFiles := s.db.tracked.length
        totalEvents := s.db.events.length
        eventsByType := fun t =>
          (s.db.events.filter (fun e => e.sourceType == t)).length }

/-- `ObservabilityIngestor.close`: idempotent; marks the instance
closed, clears any pending debounce timer and detaches the watcher
(`stopWatching`), releasing the store handle. -/
def Ingestor.close (s : Ingestor) : Ingestor :=
  if s.closed then s
  else { s with closed := true, timerSet := false, watching := false }

/-- `n` watcher change notifications for the same path delivered
back-to-back (within one debounce window, no timer firing between
them). -/
def notifyTimes (p : String) : Nat → Ingestor → Ingestor
  | 0, s => s
  | n + 1, s => notifyTimes p n (Ingestor.onFileChange FileEventKind.change p s)

/-! ## Specification-side auxiliaries and concrete fixtures -/

/-- Number of occurrences of a path in a list (used to state
exactly-once properties about pending sets and pass batches). -/
def countOcc (p : String) : List String → Nat
  | [] => 0
  | q :: rest => (if q = p then 1 else 0) + countOcc p rest

/-- A runtime environment whose `JSON.parse` returns, for every input,
a fixed object that passes the cache-trace shape check. -/
def envAll : JsEnv :=
  { jp := fun _ => some (JsVal.obj
      [("ts", JsVal.str "t"), ("seq", JsVal.num 1), ("stage", JsVal.str "x")])
    nowIso := "1970-01-01T00:00:00.000Z"
    msToIso := fun _ => Except.ok "1970-01-01T00:00:00.000Z" }

/-- A runtime environment whose `JSON.parse` always throws. -/
def envNone : JsEnv :=
  { jp := fun _ => none
    nowIso := "1970-01-01T00:00:00.000Z"
    msToIso := fun _ => Except.ok "1970-01-01T00:00:00.000Z" }

/-- A database in which no insert statement ever fails. -/
def failNever : ParsedEvent → Bool := fun _ => false

/-- A database in which inserting the row whose raw text is `"{y}"`
throws, and every other insert succeeds. -/
def failOnY : ParsedEvent → Bool := fun e => e.rawJson == "\x7by\x7d"

/-- A freshly created ingestor over an empty store, with batch size 1
and a single exact-path descriptor for the path `"p"`. -/
def ingBase : Ingestor :=
  { dbPath := "observability.db"
    watchedPaths := [{ pattern := "p", sourceType := SourceType.cacheTrace }]
    batchSize := 1
    watching := false
    pendingFiles := []
    timerSet := false
    processing := false
    closed := false
    db := { events := [], tracked := [] } }

/-- An ingestor whose store already tracks the path `"p"` at byte
offset 4, last seen at time 5, with recorded file size 4. -/
def ingTracked : Ingestor :=
  { ingBase with db :=
      { events := []
        tracked := [("p", { sourceType := SourceType.session, byteOffset := 4,
                            lastSeenAt := 5, fileSize := 4 })] } }

/-- An ingestor on which `close()` has completed. -/
def ingClosed : Ingestor := { ingBase with closed := true }

/-- A filesystem with no resolved files and no contents. -/
def fsEmpty : FsEnv := { contents := fun _ => none, resolved := [] }

/-- A runtime environment whose `JSON.parse` returns, for every input,
an object that fails every parser-specific shape check (the
`{"notACacheTrace":true}` object of the parser tests). -/
def envNotTrace : JsEnv :=
  { jp := fun _ => some (JsVal.obj [("notACacheTrace", JsVal.bool true)])
    nowIso := "1970-01-01T00:00:00.000Z"
    msToIso := fun _ => Except.ok "1970-01-01T00:00:00.000Z" }

/-- A runtime environment whose `JSON.parse` returns, for the input
`"{ok}"`, a well-formed cache-trace object with a numeric
`messageCount`, and for every other input the object
`{"ts":"t","seq":1,"stage":"x","note":5}` - shape-valid for the
cache-trace parser but carrying a numeric `note` (the cache-trace
writer types `note` as `string | undefined`, but the parser re-reads
whatever JSON is on disk). -/
def envMixed : JsEnv :=
  { jp := fun input =>
      if input = "\x7bok\x7d" then
        some (JsVal.obj
          [("ts", JsVal.str "t"), ("seq", JsVal.num 1),
           ("stage", JsVal.str "x"), ("messageCount", JsVal.num 5)])
      else
        some (JsVal.obj
          [("ts", JsVal.str "t"), ("seq", JsVal.num 1),
           ("stage", JsVal.str "x"), ("note", JsVal.num 5)])
    nowIso := "1970-01-01T00:00:00.000Z"
    msToIso := fun _ => Except.ok "1970-01-01T00:00:00.000Z" }

/-- Whether a parser call completed normally and produced an event
(as opposed to returning `null` or throwing). -/
def producesEvent : Except String (Option ParsedEvent) → Bool
  | Except.ok (some _) => true
  | _ => false

/-- The `rawJson` field of the event produced by a parser call, when
the call completed normally with an event. -/
def eventRawJson : Except String (Option ParsedEvent) → Option String
  | Except.ok (some e) => some e.rawJson
  | _ => none

/-- The state of `ingBase` after one successful ingestion pass over the
two-byte file `"a\n"` at time 5: no events (the single line is not
JSON), cursor and size 2, `lastSeenAt` 5. -/
def ingAfterPass : Ingestor :=
  { ingBase with db :=
      { events := []
        tracked := [("p", { sourceType := SourceType.cacheTrace, byteOffset := 2,
                            lastSeenAt := 5, fileSize := 2 })] } }

/-- An ingestor with an ingestion pass currently in flight. -/
def ingProcessing : Ingestor := { ingBase with processing := true }

/-- An ingestor with a pass in flight and a path queued during it. -/
def ingPending : Ingestor :=
  { ingBase with processing := true, pendingFiles := ["q"] }

/-- A parsed event whose raw text is `"{y}"` (the row the `failOnY`
database rejects). -/
def evY : ParsedEvent :=
  { ts := JsVal.null, sourceType := SourceType.cacheTrace, sourceFile := "f",
    eventType := "cache:x", rawJson := "\x7by\x7d" }

/-! ## Helper lemmas -/

theorem sliceResult_cursor (cs : List Char) (size start : Nat) (t r : Bool) :
    (sliceResult cs size start t r).cursor = size := by
  unfold sliceResult; split <;> rfl

theorem sliceResult_size (cs : List Char) (size start : Nat) (t r : Bool) :
    (sliceResult cs size start t r).size = size := by
  unfold sliceResult; split <;> rfl

theorem sliceResult_reset (cs : List Char) (size start : Nat) (t r : Bool) :
    (sliceResult cs size start t r).reset = r := by
  unfold sliceResult; split <;> rfl

theorem readLogSliceAt_cursor (cs : List Char) (mb : Nat) (co : Option Nat) :
    (readLogSliceAt cs mb co).cursor = cs.length := by
  unfold readLogSliceAt
  split
  · split
    · exact sliceResult_cursor ..
    · split
      · exact sliceResult_cursor ..
      · exact sliceResult_cursor ..
  · exact sliceResult_cursor ..

theorem readLogSliceAt_size (cs : List Char) (mb : Nat) (co : Option Nat) :
    (readLogSliceAt cs mb co).size = cs.length := by
  unfold readLogSliceAt
  split
  · split
    · exact sliceResult_size ..
    · split
      · exact sliceResult_size ..
      · exact sliceResult_size ..
  · exact sliceResult_size ..

theorem readLogSlice_some_cursor (cs : List Char) (cp : Option Int) (mb : Nat) :
    (readLogSlice (some cs) cp mb).cursor = cs.length :=
  readLogSliceAt_cursor ..

theorem readLogSlice_some_size (cs : List Char) (cp : Option Int) (mb : Nat) :
    (readLogSlice (some cs) cp mb).size = cs.length :=
  readLogSliceAt_size ..

theorem readNewLines_none (c mb : Nat) :
    readNewLines none c mb
      = { lines := [], newCursor := 0, fileSize := 0, reset := false } := rfl

theorem readNewLines_some_newCursor (cs : List Char) (c mb : Nat) :
    (readNewLines (some cs) c mb).newCursor = cs.length :=
  readLogSlice_some_cursor ..

theorem readNewLines_some_fileSize (cs : List Char) (c mb : Nat) :
    (readNewLines (some cs) c mb).fileSize = cs.length :=
  readLogSlice_some_size ..

theorem cursorNorm_ofNat (n : Nat) : (max 0 (Int.ofNat n)).toNat = n := by
  have h0 : (0 : Int) ≤ Int.ofNat n := Int.ofNat_nonneg n
  rw [max_eq_right h0]
  rfl

theorem readNewLines_at_size (cs : List Char) (mb : Nat) :
    (readNewLines (some cs) cs.length mb).lines = [] := by
  unfold readNewLines readLogSlice readLogSliceAt
  simp only [Option.map_some, cursorNorm_ofNat]
  have h1 : ¬ (cs.length > cs.length) := lt_irrefl _
  have h2 : ¬ (cs.length - cs.length > mb) := by omega
  simp [h1, h2, sliceResult]

theorem find?_upsertTracked (l : List (String × TrackedRow)) (p : String)
    (r : TrackedRow) :
    (upsertTracked l p r).find? (fun kv => kv.1 == p) = some (p, r) := by
  induction l with
  | nil => simp [upsertTracked, List.find?]
  | cons kv rest ih =>
    unfold upsertTracked
    cases h : kv.1 == p with
    | true => simp [h, List.find?]
    | false => simp [h, List.find?, ih]

theorem getTrackedFile_update (now : Nat) (db : Store) (p : String)
    (sty : SourceType) (off sz : Nat) :
    getTrackedFile (updateTrackedFile now db p sty off sz) p = some (off, sz) := by
  unfold getTrackedFile updateTrackedFile
  simp [find?_upsertTracked]

theorem getTrackedRow_update (now : Nat) (db : Store) (p : String)
    (sty : SourceType) (off sz : Nat) :
    getTrackedRow (updateTrackedFile now db p sty off sz) p
      = some { sourceType := sty, byteOffset := off, lastSeenAt := now,
               fileSize := sz } := by
  unfold getTrackedRow updateTrackedFile
  simp [find?_upsertTracked]

theorem insertEventsBatch_tracked (fail : ParsedEvent → Bool) (now : Nat)
    (events : List ParsedEvent) (db : Store) :
    (insertEventsBatch fail now events db).1.tracked = db.tracked := by
  unfold insertEventsBatch
  split
  · rfl
  · split <;> rfl

theorem insertEventsGo_tracked (fail : ParsedEvent → Bool) (now : Nat) :
    ∀ (chunks : List (List ParsedEvent)) (db : Store),
      (insertEventsGo fail now chunks db).1.tracked = db.tracked := by
  intro chunks
  induction chunks with
  | nil => intro db; rfl
  | cons batch rest ih =>
    intro db
    unfold insertEventsGo
    cases hb : insertEventsBatch fail now batch db with
    | mk db2 err =>
      have ht : db2.tracked = db.tracked := by
        have := insertEventsBatch_tracked fail now batch db
        rw [hb] at this; exact this
      cases err with
      | true => simpa using ht
      | false => simpa [ih db2] using ht

theorem insertEventsGo_events_mem (fail : ParsedEvent → Bool) (now : Nat) :
    ∀ (chunks : List (List ParsedEvent)) (db : Store) (row : DbEvent),
      row ∈ (insertEventsGo fail now chunks db).1.events →
      row ∈ db.events ∨ ∃ e, fail e = false ∧ row = toDbRow now e := by
  intro chunks
  induction chunks with
  | nil => intro db row h; exact Or.inl h
  | cons batch rest ih =>
    intro db row h
    unfold insertEventsGo at h
    unfold insertEventsBatch at h
    by_cases h1 : batch.isEmpty
    · simp only [h1, if_true] at h
      exact ih db row h
    · simp only [h1, if_false] at h
      by_cases h2 : batch.any fail
      · simp only [h2, if_true] at h
        exact Or.inl h
      · simp only [h2, if_false] at h
        have h2f : batch.any fail = false := by
          cases hb : batch.any fail with
          | true => exact absurd hb h2
          | false => rfl
        rcases ih _ row h with hmem | hnew
        · rcases List.mem_append.mp hmem with hold | hmap
          · exact Or.inl hold
          · rcases List.mem_map.mp hmap with ⟨e, he, heq⟩
            refine Or.inr ⟨e, ?_, heq.symm⟩
            have := List.any_eq_false.mp h2f e he
            cases hf : fail e with
            | true => exact absurd hf this
            | false => rfl
        · exact Or.inr hnew


theorem ingestFile_closed (env : JsEnv) (fail : ParsedEvent → Bool) (now : Nat)
    (content : Option (List Char)) (p : String) (sty : SourceType)
    (s : Ingestor) :
    (Ingestor.ingestFile env fail now content p sty s).1.closed = s.closed := by
  unfold Ingestor.ingestFile
  dsimp only
  split
  · rfl
  · split
    · rfl
    · split
      · rfl
      · split <;> split <;> rfl

theorem ingestFile_watchedPaths (env : JsEnv) (fail : ParsedEvent → Bool)
    (now : Nat) (content : Option (List Char)) (p : String) (sty : SourceType)
    (s : Ingestor) :
    (Ingestor.ingestFile env fail now content p sty s).1.watchedPaths
      = s.watchedPaths := by
  unfold Ingestor.ingestFile
  dsimp only
  split
  · rfl
  · split
    · rfl
    · split
      · rfl
      · split <;> split <;> rfl

theorem memStr_append_right (p : String) (l : List String) :
    memStr p (l ++ [p]) = true := by
  induction l with
  | nil => simp [memStr]
  | cons q rest ih => simp [memStr, ih]

theorem memStr_insertSet (p : String) (l : List String) :
    memStr p (insertSet p l) = true := by
  unfold insertSet
  cases h : memStr p l with
  | true => simpa using h
  | false => simpa using memStr_append_right p l

theorem insertSet_mem_eq (p : String) (l : List String)
    (h : memStr p l = true) : insertSet p l = l := by
  unfold insertSet; rw [h]; rfl

theorem countOcc_zero_memStr (p : String) (l : List String) :
    countOcc p l = 0 → memStr p l = false := by
  induction l with
  | nil => intro _; rfl
  | cons q rest ih =>
    intro h
    unfold countOcc at h
    by_cases hq : q = p
    · simp [hq] at h
    · have hrest : countOcc p rest = 0 := by omega
      simp [memStr, ih hrest, hq]

theorem countOcc_append (p : String) (l1 l2 : List String) :
    countOcc p (l1 ++ l2) = countOcc p l1 + countOcc p l2 := by
  induction l1 with
  | nil => simp [countOcc]
  | cons q rest ih => simp [countOcc, ih]; omega

theorem countOcc_insertSet (p : String) (l : List String)
    (h : countOcc p l = 0) : countOcc p (insertSet p l) = 1 := by
  unfold insertSet
  rw [countOcc_zero_memStr p l h]
  simp [countOcc_append, countOcc, h]

theorem scheduleIngest_pendingFiles (s : Ingestor) :
    (Ingestor.scheduleIngest s).pendingFiles = s.pendingFiles := by
  unfold Ingestor.scheduleIngest; split <;> rfl

theorem scheduleIngest_timerSet (s : Ingestor) :
    (Ingestor.scheduleIngest s).timerSet = true := by
  unfold Ingestor.scheduleIngest
  split
  · next h => exact h
  · rfl

theorem scheduleIngest_idem (s : Ingestor) :
    Ingestor.scheduleIngest (Ingestor.scheduleIngest s)
      = Ingestor.scheduleIngest s := by
  by_cases h : s.timerSet = true
  · simp [Ingestor.scheduleIngest, h]
  · simp [Ingestor.scheduleIngest, h]

theorem onFileChange_change_eq (p : String) (s : Ingestor) :
    Ingestor.onFileChange FileEventKind.change p s
      = Ingestor.scheduleIngest
          { s with pendingFiles := insertSet p s.pendingFiles } := rfl

theorem onFileChange_change_idem (p : String) (s : Ingestor) :
    Ingestor.onFileChange FileEventKind.change p
        (Ingestor.onFileChange FileEventKind.change p s)
      = Ingestor.onFileChange FileEventKind.change p s := by
  rw [onFileChange_change_eq, onFileChange_change_eq]
  have hp : (Ingestor.scheduleIngest
        { s with pendingFiles := insertSet p s.pendingFiles }).pendingFiles
      = insertSet p s.pendingFiles := scheduleIngest_pendingFiles _
  have hm : memStr p (Ingestor.scheduleIngest
        { s with pendingFiles := insertSet p s.pendingFiles }).pendingFiles
      = true := by
    rw [hp]; exact memStr_insertSet ..
  rw [insertSet_mem_eq _ _ hm]
  exact scheduleIngest_idem _

theorem insertEvents_tracked (fail : ParsedEvent → Bool) (now bs : Nat)
    (events : List ParsedEvent) (db : Store) :
    (insertEvents fail now bs events db).1.tracked = db.tracked :=
  insertEventsGo_tracked fail now (chunksOf bs events) db

theorem insertEvents_events_mem (fail : ParsedEvent → Bool) (now bs : Nat)
    (events : List ParsedEvent) (db : Store) (row : DbEvent)
    (h : row ∈ (insertEvents fail now bs events db).1.events) :
    row ∈ db.events ∨ ∃ e, fail e = false ∧ row = toDbRow now e :=
  insertEventsGo_events_mem fail now (chunksOf bs events) db row h

/-! ## The claims -/

/-- Claim C1 (code bug): the tail reader is documented (and specified)
to return only complete lines, never a line still in progress at
end-of-file, and to deliver the completed record exactly once on a
later read.  The code violates this: reading `"{a}\n{inco"` from
cursor 0 returns the unterminated fragment `"{inco"` as a line (and
advances the cursor to 9 = the full size), and after the record is
completed on disk the read from cursor 9 drops the leading fragment
remainder and returns no line at all, so the completed record is never
delivered. -/
theorem tailReader_emits_partial_line :
    (readLogSlice (some ("\x7ba\x7d\n\x7binco".toList)) (some 0) 1000000).lines
        = ["\x7ba\x7d", "\x7binco"] ∧
    (readLogSlice (some ("\x7ba\x7d\n\x7binco".toList)) (some 0) 1000000).cursor = 9 ∧
    (readLogSlice (some ("\x7ba\x7d\n\x7bincomplete\x7d\n".toList)) (some 9) 1000000).lines
        = [] := by
  exact ⟨by decide, by decide, by decide⟩

/-- Claim C2 (confirmed): a second ingestion pass over the same file
content, after a pass that completed without a store error, reads zero
lines, inserts nothing, and leaves the whole ingestor state - in
particular the tracked cursor - exactly as the first pass left it.
The second pass's parser environment, failure behaviour, clock and
batch configuration are irrelevant. -/
theorem ingestFile_idempotent_resumption (env env2 : JsEnv)
    (fail fail2 : ParsedEvent → Bool) (now now2 : Nat)
    (content : Option (List Char)) (p : String) (sty : SourceType)
    (s0 s1 : Ingestor) (n : Nat)
    (h : Ingestor.ingestFile env fail now content p sty s0 = (s1, n, false)) :
    Ingestor.ingestFile env2 fail2 now2 content p sty s1 = (s1, 0, false) := by
  cases hc : s0.closed with
  | true =>
    unfold Ingestor.ingestFile at h
    rw [if_pos hc] at h
    have hs : s0 = s1 := congrArg Prod.fst h
    subst hs
    unfold Ingestor.ingestFile
    rw [if_pos hc]
  | false =>
    unfold Ingestor.ingestFile at h
    rw [if_neg (by simp [hc])] at h
    dsimp only at h
    split at h
    · next hl =>
      have hs : s0 = s1 := congrArg Prod.fst h
      subst hs
      unfold Ingestor.ingestFile
      rw [if_neg (by simp [hc])]
      dsimp only
      rw [if_pos hl]
    · next hl =>
      split at h
      · next heq =>
        have h3 : true = false := congrArg (fun t => t.2.2) h
        exact Bool.noConfusion h3
      · next events heq =>
        split at h
        · next hev =>
          split at h
          · next herr =>
            have h3 : true = false := congrArg (fun t => t.2.2) h
            exact Bool.noConfusion h3
          · next herr =>
            injection h with h1 h23
            subst h1
            cases content with
            | none => exact absurd (by simp [readNewLines_none]) hl
            | some cs =>
              unfold Ingestor.ingestFile
              rw [if_neg (by simp [hc])]
              dsimp only
              simp [getTrackedFile_update, readNewLines_some_newCursor,
                readNewLines_at_size]
        · next hev =>
          injection h with h1 h23
          subst h1
          cases content with
          | none => exact absurd (by simp [readNewLines_none]) hl
          | some cs =>
            unfold Ingestor.ingestFile
            rw [if_neg (by simp [hc])]
            dsimp only
            simp [getTrackedFile_update, readNewLines_some_newCursor,
              readNewLines_at_size]

/-- Witness for C2: ingesting the file `"a\n"` once from a fresh store
ends at cursor 2; a second pass with a different clock returns zero
events and leaves the state unchanged. -/
theorem ingestFile_idempotent_resumption_witness :
    Ingestor.ingestFile envNone failNever 6 (some ("a\n".toList)) "p"
        SourceType.cacheTrace ingAfterPass = (ingAfterPass, 0, false) :=
  ingestFile_idempotent_resumption envNone envNone failNever failNever 5 6
    (some ("a\n".toList)) "p" SourceType.cacheTrace ingBase ingAfterPass 0
    (by rfl)

/-- Claim C3 (corrected, counterexample): the claim says a store
failure during the batch insert of one pass rolls back every event of
that pass.  With batch size 1, a pass parsing the two lines `"{x}"`
and `"{y}"` whose second row's insert fails ends with the error
propagated - yet one event (the first, separately committed batch)
remains persisted. -/
theorem insertFailure_leaves_earlier_batch :
    (Ingestor.ingestFile envAll failOnY 7
        (some ("\x7bx\x7d\n\x7by\x7d\n".toList)) "f" SourceType.cacheTrace
        ingBase).2.2 = true ∧
    ((Ingestor.ingestFile envAll failOnY 7
        (some ("\x7bx\x7d\n\x7by\x7d\n".toList)) "f" SourceType.cacheTrace
        ingBase).1.db.events).length = 1 := by
  exact ⟨rfl, rfl⟩

/-- Claim C3 (amended): on a store failure during a pass's inserts,
the failing `insertEventsBatch` transaction is rolled back whole (the
store is unchanged by it and the error propagates); the pass's tracked
cursor is not advanced; no event of a failing batch is ever persisted
(anything newly persisted comes from an earlier, fail-free batch of
the pass); and the per-file loop still processes the remaining files
of the same debounced batch.  Unlike the original claim, events of
earlier batches of the same pass that already committed are kept. -/
theorem insertFailure_rollback_and_no_cursor_advance :
    (∀ (fail : ParsedEvent → Bool) (now : Nat) (batch : List ParsedEvent)
        (db : Store), batch.any fail = true →
        insertEventsBatch fail now batch db = (db, true)) ∧
    (∀ (env : JsEnv) (fail : ParsedEvent → Bool) (now : Nat)
        (content : Option (List Char)) (p : String) (sty : SourceType)
        (s s1 : Ingestor) (n : Nat),
        Ingestor.ingestFile env fail now content p sty s = (s1, n, true) →
        s1.db.tracked = s.db.tracked ∧
        ∀ row ∈ s1.db.events,
          row ∈ s.db.events ∨ ∃ e, fail e = false ∧ row = toDbRow now e) ∧
    (∀ (env : JsEnv) (fail : ParsedEvent → Bool) (now : Nat)
        (fs : String → Option (List Char)) (p : String) (rest : List String)
        (s : Ingestor) (sty : SourceType),
        s.closed = false →
        Ingestor.getSourceTypeForFile s p = some sty →
        Ingestor.runPass env fail now fs (p :: rest) s
          = ((Ingestor.runPass env fail now fs rest
                (Ingestor.ingestFile env fail now (fs p) p sty s).1).1,
             p :: (Ingestor.runPass env fail now fs rest
                (Ingestor.ingestFile env fail now (fs p) p sty s).1).2)) := by
  refine ⟨?_, ?_, ?_⟩
  · intro fail now batch db h
    unfold insertEventsBatch
    cases batch with
    | nil => simp at h
    | cons e rest => simp [h]
  · intro env fail now content p sty s s1 n h
    cases hc : s.closed with
    | true =>
      unfold Ingestor.ingestFile at h
      rw [if_pos hc] at h
      have h3 : false = true := congrArg (fun t => t.2.2) h
      exact Bool.noConfusion h3
    | false =>
      unfold Ingestor.ingestFile at h
      rw [if_neg (by simp [hc])] at h
      dsimp only at h
      split at h
      · next hl =>
        have h3 : false = true := congrArg (fun t => t.2.2) h
        exact Bool.noConfusion h3
      · next hl =>
        split at h
        · next heq =>
          injection h with h1 h23
          subst h1
          exact ⟨rfl, fun row hrow => Or.inl hrow⟩
        · next events heq =>
          split at h
          · next hev =>
            split at h
            · next herr =>
              injection h with h1 h23
              subst h1
              refine ⟨insertEvents_tracked .., ?_⟩
              intro row hrow
              exact insertEvents_events_mem fail now s.batchSize _ s.db row hrow
            · next herr =>
              have h3 : false = true := congrArg (fun t => t.2.2) h
              exact Bool.noConfusion h3
          · next hev =>
            have h3 : false = true := congrArg (fun t => t.2.2) h
            exact Bool.noConfusion h3
  · intro env fail now fs p rest s sty hc hsty
    conv_lhs => unfold Ingestor.runPass
    rw [if_neg (by simp [hc]), hsty]

/-- Witness for C3: a batch containing the rejected row `evY` is rolled
back whole; the failing two-line pass of the counterexample does not
advance the cursor; and the loop continues past a file after its pass. -/
theorem insertFailure_rollback_and_no_cursor_advance_witness :
    insertEventsBatch failOnY 7 [evY] ingBase.db = (ingBase.db, true) ∧
    ((Ingestor.ingestFile envAll failOnY 7
        (some ("\x7bx\x7d\n\x7by\x7d\n".toList)) "f" SourceType.cacheTrace
        ingBase).1.db.tracked = ingBase.db.tracked) ∧
    Ingestor.runPass envNone failNever 0 (fun _ => none) ["p"] ingBase
      = ((Ingestor.runPass envNone failNever 0 (fun _ => none) []
            (Ingestor.ingestFile envNone failNever 0 none "p"
              SourceType.cacheTrace ingBase).1).1,
         "p" :: (Ingestor.runPass envNone failNever 0 (fun _ => none) []
            (Ingestor.ingestFile envNone failNever 0 none "p"
              SourceType.cacheTrace ingBase).1).2) := by
  refine ⟨?_, ?_, ?_⟩
  · exact insertFailure_rollback_and_no_cursor_advance.1 failOnY 7 [evY]
      ingBase.db (by rfl)
  · exact (insertFailure_rollback_and_no_cursor_advance.2.1 envAll failOnY 7
      (some ("\x7bx\x7d\n\x7by\x7d\n".toList)) "f" SourceType.cacheTrace
      ingBase _ _ rfl).1
  · exact insertFailure_rollback_and_no_cursor_advance.2.2 envNone failNever 0
      (fun _ => none) "p" [] ingBase SourceType.cacheTrace rfl rfl

/-- Claim C4 (code bug): the default session pattern
`<stateDir>/agents/**/sessions/*.jsonl` is meant to match every file of
the shape `<stateDir>/agents/<id>/sessions/<name>.jsonl` and classify
it as a session source.  `matchesPattern` compares the part after `**`
as a literal suffix (`endsWith "sessions/*.jsonl"`), which no real path
ends with, so such files match nothing in the default descriptor list
and change notifications for them are ignored.  The single-`*` branch
itself works (third conjunct), so the slip is specific to a `*` inside
the suffix of a `**` pattern. -/
theorem session_glob_pattern_never_matches :
    matchesPattern "/sd/agents/a1/sessions/s.jsonl"
        "/sd/agents/**/sessions/*.jsonl" = false ∧
    findSourceType (getDefaultWatchedPaths "/sd")
        "/sd/agents/a1/sessions/s.jsonl" = none ∧
    matchesPattern "/tmp/openclaw/openclaw-x.log"
        "/tmp/openclaw/openclaw-*.log" = true := by
  exact ⟨by decide, by rfl, by decide⟩

/-- Claim C5 (corrected, counterexample): a pass over the file
`"abcd"` whose cursor (4) already equals the size reads zero lines and
- contrary to the claim - leaves the tracked record completely
untouched: at clock 99 the stored `lastSeenAt` stays 5.
`ingestFile` returns before `updateTrackedFile` when zero lines are
read (ingestor.ts lines 436-438). -/
theorem zero_line_pass_skips_refresh :
    Ingestor.ingestFile envNone failNever 99 (some ("abcd".toList)) "p"
        SourceType.session ingTracked = (ingTracked, 0, false) ∧
    (getTrackedRow ingTracked.db "p").map (fun t => t.lastSeenAt) = some 5 ∧
    (5 : Nat) ≠ 99 := by
  exact ⟨rfl, rfl, by decide⟩

/-- Claim C5 (amended): a pass that reads zero lines performs no insert
and leaves the ingestor - including the tracked-file record - entirely
unchanged (so `lastSeenAt`, `byteOffset` and `fileSize` are not
refreshed); a pass that reads at least one line and completes without
a store error upserts the record with the observed new cursor, file
size, and the current time. -/
theorem tracking_update_on_nonempty_pass :
    (∀ (env : JsEnv) (fail : ParsedEvent → Bool) (now : Nat)
        (content : Option (List Char)) (p : String) (sty : SourceType)
        (s : Ingestor),
        (readNewLines content
            ((Option.map Prod.fst (getTrackedFile s.db p)).getD 0)
            DEFAULT_MAX_BYTES).lines = [] →
        Ingestor.ingestFile env fail now content p sty s = (s, 0, false)) ∧
    (∀ (env : JsEnv) (fail : ParsedEvent → Bool) (now : Nat)
        (content : Option (List Char)) (p : String) (sty : SourceType)
        (s s1 : Ingestor) (n : Nat) (r : NewLinesResult),
        s.closed = false →
        r = readNewLines content
            ((Option.map Prod.fst (getTrackedFile s.db p)).getD 0)
            DEFAULT_MAX_BYTES →
        r.lines ≠ [] →
        Ingestor.ingestFile env fail now content p sty s = (s1, n, false) →
        getTrackedRow s1.db p
          = some { sourceType := sty, byteOffset := r.newCursor,
                   lastSeenAt := now, fileSize := r.fileSize }) := by
  refine ⟨?_, ?_⟩
  · intro env fail now content p sty s h
    cases hc : s.closed with
    | true =>
      unfold Ingestor.ingestFile
      rw [if_pos hc]
    | false =>
      unfold Ingestor.ingestFile
      rw [if_neg (by simp [hc])]
      dsimp only
      rw [if_pos (by simp [h])]
  · intro env fail now content p sty s s1 n r hc hr hne h
    subst hr
    unfold Ingestor.ingestFile at h
    rw [if_neg (by simp [hc])] at h
    dsimp only at h
    split at h
    · next hl =>
      exact absurd (List.isEmpty_iff.mp hl) hne
    · next hl =>
      split at h
      · next heq =>
        have h3 : true = false := congrArg (fun t => t.2.2) h
        exact Bool.noConfusion h3
      · next events heq =>
        split at h
        · next hev =>
          split at h
          · next herr =>
            have h3 : true = false := congrArg (fun t => t.2.2) h
            exact Bool.noConfusion h3
          · next herr =>
            injection h with h1 h23
            subst h1
            simp [getTrackedRow_update]
        · next hev =>
          injection h with h1 h23
          subst h1
          simp [getTrackedRow_update]

/-- Witness for C5 (amended): the zero-line pass over `"abcd"` at
cursor 4 returns the state unchanged, and the one-line pass over
`"a\n"` upserts the record `(cursor 2, size 2, seen-at 5)`. -/
theorem tracking_update_on_nonempty_pass_witness :
    Ingestor.ingestFile envNone failNever 99 (some ("abcd".toList)) "p"
        SourceType.session ingTracked = (ingTracked, 0, false) ∧
    getTrackedRow ingAfterPass.db "p"
      = some { sourceType := SourceType.cacheTrace, byteOffset := 2,
               lastSeenAt := 5, fileSize := 2 } := by
  refine ⟨?_, ?_⟩
  · exact tracking_update_on_nonempty_pass.1 envNone failNever 99
      (some ("abcd".toList)) "p" SourceType.session ingTracked (by rfl)
  · exact tracking_update_on_nonempty_pass.2 envNone failNever 5
      (some ("a\n".toList)) "p" SourceType.cacheTrace ingBase ingAfterPass 0
      { lines := ["a"], newCursor := 2, fileSize := 2, reset := false }
      rfl (by rfl) (by decide) (by rfl)

/-- Claim C6 (corrected, counterexample): the raw-text field is the
*trimmed* line, not the original line verbatim: parsing the line
`" {}"` (leading space) stores `rawJson = "{}"`, which differs from the
input line. -/
theorem rawJson_differs_from_original_line :
    eventRawJson (parseCacheTraceLine envAll " \x7b\x7d" "f")
      = some "\x7b\x7d" ∧
    (" \x7b\x7d" : String) ≠ "\x7b\x7d" := by
  exact ⟨rfl, by decide⟩

/-- Claim C6 (amended): for every line on which any of the three
parsers produces an event, the event's `rawJson` equals
`line.trim()` - the original line with surrounding whitespace removed -
and therefore equals the original line exactly whenever the line
carries no leading or trailing whitespace. -/
theorem rawJson_is_trimmed_line :
    (∀ (env : JsEnv) (line f : String) (e : ParsedEvent),
        parseCacheTraceLine env line f = Except.ok (some e) →
        e.rawJson = jsTrim line) ∧
    (∀ (env : JsEnv) (line f : String) (e : ParsedEvent),
        parseSystemLogLine env line f = Except.ok (some e) →
        e.rawJson = jsTrim line) ∧
    (∀ (env : JsEnv) (line f : String) (e : ParsedEvent),
        parseSessionLine env line f = Except.ok (some e) →
        e.rawJson = jsTrim line) ∧
    (∀ (env : JsEnv) (line f : String) (e : ParsedEvent),
        jsTrim line = line →
        (parseCacheTraceLine env line f = Except.ok (some e) ∨
          parseSystemLogLine env line f = Except.ok (some e) ∨
          parseSessionLine env line f = Except.ok (some e)) →
        e.rawJson = line) := by
  have h1 : ∀ (env : JsEnv) (line f : String) (e : ParsedEvent),
      parseCacheTraceLine env line f = Except.ok (some e) →
      e.rawJson = jsTrim line := by
    intro env line f e h
    unfold parseCacheTraceLine at h
    dsimp only at h
    split at h
    · injection h with h2; exact Option.noConfusion h2
    · split at h
      · injection h with h2; exact Option.noConfusion h2
      · split at h
        · injection h with h2; exact Option.noConfusion h2
        · split at h
          · exact Except.noConfusion h
          · injection h with h2
            injection h2 with h3
            subst h3
            rfl
  have h2 : ∀ (env : JsEnv) (line f : String) (e : ParsedEvent),
      parseSystemLogLine env line f = Except.ok (some e) →
      e.rawJson = jsTrim line := by
    intro env line f e h
    unfold parseSystemLogLine at h
    dsimp only at h
    split at h
    · injection h with h2; exact Option.noConfusion h2
    · split at h
      · injection h with h2; exact Option.noConfusion h2
      · split at h
        · injection h with h2; exact Option.noConfusion h2
        · split at h
          · exact Except.noConfusion h
          · injection h with h2
            injection h2 with h3
            subst h3
            rfl
  have h3 : ∀ (env : JsEnv) (line f : String) (e : ParsedEvent),
      parseSessionLine env line f = Except.ok (some e) →
      e.rawJson = jsTrim line := by
    intro env line f e h
    unfold parseSessionLine at h
    dsimp only at h
    split at h
    · injection h with h2; exact Option.noConfusion h2
    · split at h
      · injection h with h2; exact Option.noConfusion h2
      · split at h
        · injection h with h2; exact Option.noConfusion h2
        · split at h
          · injection h with h2
            injection h2 with h3
            subst h3
            rfl
          · split at h
            · split at h
              · exact Except.noConfusion h
              · injection h with h2
                injection h2 with h3
                subst h3
                rfl
            · injection h with h2
              injection h2 with h3
              subst h3
              rfl
  refine ⟨h1, h2, h3, ?_⟩
  intro env line f e ht hor
  rcases hor with h | h | h
  · exact (h1 env line f e h).trans ht
  · exact (h2 env line f e h).trans ht
  · exact (h3 env line f e h).trans ht

theorem producesEvent_exists (r : Except String (Option ParsedEvent))
    (h : producesEvent r = true) : ∃ e, r = Except.ok (some e) := by
  cases r with
  | error m => exact Bool.noConfusion h
  | ok o =>
    cases o with
    | none => exact Bool.noConfusion h
    | some e => exact ⟨e, rfl⟩

/-- Witness for C6 (amended): the event parsed from `" {a}"` carries
exactly the trimmed line as its raw text. -/
theorem rawJson_is_trimmed_line_witness :
    eventRawJson (parseCacheTraceLine envAll " \x7ba\x7d" "g")
      = some (jsTrim " \x7ba\x7d") := by
  obtain ⟨e, he⟩ :=
    producesEvent_exists (parseCacheTraceLine envAll " \x7ba\x7d" "g") rfl
  rw [he]
  exact congrArg some (rawJson_is_trimmed_line.1 envAll " \x7ba\x7d" "g" e he)

/-- Claim C7 (corrected, counterexample): the claim says every
operation on a closed ingestor - `ingestFile` included - fails with an
error.  `ingestFile` on a closed instance instead returns 0 silently
(no error flag, no state change). -/
theorem closed_ingestFile_returns_without_error :
    ingClosed.closed = true ∧
    Ingestor.ingestFile envNone failNever 0 (some ("x\n".toList)) "p"
        SourceType.session ingClosed = (ingClosed, 0, false) := by
  exact ⟨rfl, rfl⟩

/-- Claim C7 (amended): after `close()`, `startWatching`,
`ingestExisting` and `status` each fail immediately with the error
"Ingestor is closed"; `ingestFile`, however, returns 0 without an
error and without touching any state; and `close()` is idempotent and
leaves the instance closed. -/
theorem closed_instance_fail_fast :
    (∀ (env : JsEnv) (fail : ParsedEvent → Bool) (now : Nat) (fs : FsEnv)
        (s : Ingestor), s.closed = true →
        Ingestor.startWatching env fail now fs s
          = Except.error "Ingestor is closed") ∧
    (∀ (env : JsEnv) (fail : ParsedEvent → Bool) (now : Nat) (fs : FsEnv)
        (s : Ingestor), s.closed = true →
        Ingestor.ingestExisting env fail now fs s
          = Except.error "Ingestor is closed") ∧
    (∀ s : Ingestor, s.closed = true →
        Ingestor.status s = Except.error "Ingestor is closed") ∧
    (∀ (env : JsEnv) (fail : ParsedEvent → Bool) (now : Nat)
        (content : Option (List Char)) (p : String) (sty : SourceType)
        (s : Ingestor), s.closed = true →
        Ingestor.ingestFile env fail now content p sty s = (s, 0, false)) ∧
    (∀ s : Ingestor, Ingestor.close (Ingestor.close s) = Ingestor.close s) ∧
    (∀ s : Ingestor, (Ingestor.close s).closed = true) := by
  refine ⟨?_, ?_, ?_, ?_, ?_, ?_⟩
  · intro env fail now fs s h
    unfold Ingestor.startWatching
    rw [if_pos h]
  · intro env fail now fs s h
    unfold Ingestor.ingestExisting
    rw [if_pos h]
  · intro s h
    unfold Ingestor.status
    rw [if_pos h]
  · intro env fail now content p sty s h
    unfold Ingestor.ingestFile
    rw [if_pos h]
  · intro s
    by_cases h : s.closed = true
    · simp [Ingestor.close, h]
    · simp [Ingestor.close, h]
  · intro s
    by_cases h : s.closed = true
    · simp [Ingestor.close, h]
    · simp [Ingestor.close, h]

/-- Witness for C7 (amended): the concrete closed ingestor rejects
`startWatching`, `ingestExisting` and `status`, while `ingestFile`
returns 0 silently; closing `ingBase` twice equals closing it once. -/
theorem closed_instance_fail_fast_witness :
    Ingestor.startWatching envNone failNever 0 fsEmpty ingClosed
      = Except.error "Ingestor is closed" ∧
    Ingestor.ingestExisting envNone failNever 0 fsEmpty ingClosed
      = Except.error "Ingestor is closed" ∧
    Ingestor.status ingClosed = Except.error "Ingestor is closed" ∧
    Ingestor.ingestFile envNone failNever 0 none "p" SourceType.session
        ingClosed = (ingClosed, 0, false) ∧
    Ingestor.close (Ingestor.close ingBase) = Ingestor.close ingBase ∧
    (Ingestor.close ingBase).closed = true := by
  refine ⟨?_, ?_, ?_, ?_, ?_, ?_⟩
  · exact closed_instance_fail_fast.1 envNone failNever 0 fsEmpty ingClosed rfl
  · exact closed_instance_fail_fast.2.1 envNone failNever 0 fsEmpty ingClosed rfl
  · exact closed_instance_fail_fast.2.2.1 ingClosed rfl
  · exact closed_instance_fail_fast.2.2.2.1 envNone failNever 0 none "p"
      SourceType.session ingClosed rfl
  · exact closed_instance_fail_fast.2.2.2.2.1 ingBase
  · exact closed_instance_fail_fast.2.2.2.2.2 ingBase

theorem readLogSlice_some_norm (cs : List Char) (c : Int) (mb : Nat) :
    readLogSlice (some cs) (some c) mb
      = readLogSliceAt cs mb (some ((max 0 c).toNat)) := rfl

theorem readLogSliceAt_some (cs : List Char) (mb c : Nat) :
    readLogSliceAt cs mb (some c)
      = if c > cs.length then sliceResult cs cs.length 0 false true
        else if cs.length - c > mb then
          sliceResult cs cs.length (cs.length - mb) true true
        else sliceResult cs cs.length c false false := rfl

/-- Claim C8 (confirmed): whenever the supplied cursor strictly exceeds
the current file size, `readLogSlice` treats the file as rotated: the
result is exactly the read from byte 0 with the `reset` flag set (and
no truncation). -/
theorem cursor_beyond_size_resets_to_start (cs : List Char) (c : Int)
    (mb : Nat) (h : (cs.length : Int) < c) :
    readLogSlice (some cs) (some c) mb = sliceResult cs cs.length 0 false true := by
  have h0 : (0 : Int) ≤ c := le_trans (Int.ofNat_nonneg cs.length) (le_of_lt h)
  have hmax : max 0 c = c := max_eq_right h0
  have hc : (max 0 c).toNat > cs.length := by rw [hmax]; omega
  rw [readLogSlice_some_norm, readLogSliceAt_some, if_pos hc]

/-- Witness for C8: reading `"ab\n"` (size 3) with stored cursor 5
starts over from byte 0 with `reset` set. -/
theorem cursor_beyond_size_resets_to_start_witness :
    readLogSlice (some ("ab\n".toList)) (some 5) 10
      = sliceResult ("ab\n".toList) ("ab\n".toList).length 0 false true :=
  cursor_beyond_size_resets_to_start ("ab\n".toList) 5 10 (by decide)

/-- Claim C9 (confirmed): debounce coalescing and non-overlap.
In order: (1) any positive number of change notifications for the same
path delivered within one debounce window has exactly the effect of a
single notification; (2) when no pass is in flight and the instance is
open, the timer firing after those notifications drains the whole
pending set as one batch; (3) a path not already pending occurs in
that batch exactly once; (4) the pass loop hands each drained
occurrence of a classified path to `ingestFile` exactly once, so one
batch occurrence is one ingestion pass; (5) the pass's read always
advances the cursor to the observed file size, covering every byte
accumulated up to the read; (6) a timer that fires while a pass is in
flight starts no new pass and drops nothing - the state only loses its
armed timer; (7) a non-unlink notification arriving during an
in-flight pass is retained in the pending set; and (8) when the
in-flight pass finishes with a non-empty pending set on an open
instance, a new debounce cycle is scheduled and the retained paths are
kept. -/
theorem debounce_coalescing_and_no_overlap :
    (∀ (p : String) (n : Nat) (s : Ingestor),
        notifyTimes p (n + 1) s
          = Ingestor.onFileChange FileEventKind.change p s) ∧
    (∀ (s : Ingestor) (p : String), s.processing = false → s.closed = false →
        (Ingestor.timerFireBegin
            (Ingestor.onFileChange FileEventKind.change p s)).2
          = some (insertSet p s.pendingFiles)) ∧
    (∀ (p : String) (l : List String), countOcc p l = 0 →
        countOcc p (insertSet p l) = 1) ∧
    (∀ (env : JsEnv) (fail : ParsedEvent → Bool) (now : Nat)
        (fs : String → Option (List Char)) (p : String) (sty : SourceType)
        (batch : List String) (s : Ingestor), s.closed = false →
        Ingestor.getSourceTypeForFile s p = some sty →
        countOcc p (Ingestor.runPass env fail now fs batch s).2
          = countOcc p batch) ∧
    (∀ (content : Option (List Char)) (c mb : Nat),
        (readNewLines content c mb).newCursor
          = (readNewLines content c mb).fileSize) ∧
    (∀ s : Ingestor, s.processing = true →
        Ingestor.timerFireBegin s = ({ s with timerSet := false }, none)) ∧
    (∀ (s : Ingestor) (e : FileEventKind) (p : String),
        e ≠ FileEventKind.unlink →
        memStr p ((Ingestor.onFileChange e p s).pendingFiles) = true) ∧
    (∀ s : Ingestor, s.pendingFiles ≠ [] → s.closed = false →
        (Ingestor.passFinish s).timerSet = true ∧
        (Ingestor.passFinish s).pendingFiles = s.pendingFiles) := by
  refine ⟨?_, ?_, ?_, ?_, ?_, ?_, ?_, ?_⟩
  · intro p n
    induction n with
    | zero => intro s; rfl
    | succ k ih =>
      intro s
      show notifyTimes p (k + 1) (Ingestor.onFileChange FileEventKind.change p s)
        = Ingestor.onFileChange FileEventKind.change p s
      rw [ih]
      exact onFileChange_change_idem p s
  · intro s p hp hc
    rw [onFileChange_change_eq]
    unfold Ingestor.timerFireBegin Ingestor.scheduleIngest
    dsimp only
    split
    · simp [hp, hc]
    · simp [hp, hc]
  · intro p l h
    exact countOcc_insertSet p l h
  · intro env fail now fs p sty batch
    induction batch with
    | nil => intro s hc hsty; rfl
    | cons q rest ih =>
      intro s hc hsty
      unfold Ingestor.runPass
      rw [if_neg (by simp [hc])]
      cases hq : Ingestor.getSourceTypeForFile s q with
      | none =>
        have hqp : q ≠ p := by
          intro he
          subst he
          rw [hq] at hsty
          exact Option.noConfusion hsty
        dsimp only
        rw [ih s hc hsty]
        simp [countOcc, hqp]
      | some styq =>
        dsimp only
        have hc2 : (Ingestor.ingestFile env fail now (fs q) q styq s).1.closed
            = false := by
          rw [ingestFile_closed]; exact hc
        have hsty2 : Ingestor.getSourceTypeForFile
            (Ingestor.ingestFile env fail now (fs q) q styq s).1 p
            = some sty := by
          unfold Ingestor.getSourceTypeForFile at hsty ⊢
          rw [ingestFile_watchedPaths]
          exact hsty
        simp [countOcc, ih _ hc2 hsty2]
  · intro content c mb
    cases content with
    | none => rfl
    | some cs => rw [readNewLines_some_newCursor, readNewLines_some_fileSize]
  · intro s hp
    unfold Ingestor.timerFireBegin
    simp [hp]
  · intro s e p he
    unfold Ingestor.onFileChange
    have hb : (e == FileEventKind.unlink) = false := by
      cases e
      · rfl
      · rfl
      · exact absurd rfl he
    rw [hb]
    rw [if_neg Bool.false_ne_true]
    rw [scheduleIngest_pendingFiles]
    exact memStr_insertSet ..
  · intro s hne hc
    unfold Ingestor.passFinish
    dsimp only
    rw [if_pos (by simp [hne, hc])]
    exact ⟨scheduleIngest_timerSet _, scheduleIngest_pendingFiles _⟩

/-- Witness for C9: three notifications for `"p"` equal one; the fire
after them drains `["p"]`; `"p"` occurs once in the drained batch; the
pass loop ingests it once; the read advances the cursor to the size; a
fire during the in-flight pass of `ingProcessing` starts nothing; a
notification during that pass is retained; and finishing the pass of
`ingPending` re-arms the timer with the pending path kept. -/
theorem debounce_coalescing_and_no_overlap_witness :
    notifyTimes "p" 3 ingBase
      = Ingestor.onFileChange FileEventKind.change "p" ingBase ∧
    (Ingestor.timerFireBegin
        (Ingestor.onFileChange FileEventKind.change "p" ingBase)).2
      = some (insertSet "p" ingBase.pendingFiles) ∧
    countOcc "p" (insertSet "p" ingBase.pendingFiles) = 1 ∧
    countOcc "p" (Ingestor.runPass envNone failNever 0 (fun _ => none)
        ["p"] ingBase).2 = countOcc "p" ["p"] ∧
    (readNewLines (some ("a\n".toList)) 0 10).newCursor
      = (readNewLines (some ("a\n".toList)) 0 10).fileSize ∧
    Ingestor.timerFireBegin ingProcessing
      = ({ ingProcessing with timerSet := false }, none) ∧
    memStr "p" ((Ingestor.onFileChange FileEventKind.change "p"
        ingProcessing).pendingFiles) = true ∧
    (Ingestor.passFinish ingPending).timerSet = true ∧
    (Ingestor.passFinish ingPending).pendingFiles = ingPending.pendingFiles := by
  refine ⟨?_, ?_, ?_, ?_, ?_, ?_, ?_, ?_, ?_⟩
  · exact debounce_coalescing_and_no_overlap.1 "p" 2 ingBase
  · exact debounce_coalescing_and_no_overlap.2.1 ingBase "p" rfl rfl
  · exact debounce_coalescing_and_no_overlap.2.2.1 "p" ingBase.pendingFiles rfl
  · exact debounce_coalescing_and_no_overlap.2.2.2.1 envNone failNever 0
      (fun _ => none) "p" SourceType.cacheTrace ["p"] ingBase rfl rfl
  · exact debounce_coalescing_and_no_overlap.2.2.2.2.1 (some ("a\n".toList)) 0 10
  · exact debounce_coalescing_and_no_overlap.2.2.2.2.2.1 ingProcessing rfl
  · exact debounce_coalescing_and_no_overlap.2.2.2.2.2.2.1 ingProcessing
      FileEventKind.change "p" (by decide)
  · exact (debounce_coalescing_and_no_overlap.2.2.2.2.2.2.2 ingPending
      (by decide) rfl).1
  · exact (debounce_coalescing_and_no_overlap.2.2.2.2.2.2.2 ingPending
      (by decide) rfl).2

/-- Claim C10 (code bug): the claim says a malformed line yields `null`
and no error is raised - a bad line never fails the rest of the file.
That holds for lines failing `JSON.parse` or the shape check, but not
in general: a shape-valid cache-trace record whose `note` field is a
truthy non-string - e.g. `{"ts":"t","seq":1,"stage":"x","note":5}`
(the writer types `note` as `string | undefined`, but the parser
re-reads whatever JSON is on disk) - makes `parseCacheTraceLine`
evaluate `messagePreview?.slice(0, 500)` with `messagePreview =
entry.note` holding the raw number, throwing a TypeError (numbers have
no `slice`).  The exception escapes `parseLines` (no try/catch around
the per-line call) and `ingestFile`, so the pass over a file holding a
good line and one such record persists nothing - the good sibling
included - and advances no cursor: one bad record fails the whole
file's pass.  In order: (1) the bad record passes the
`isCacheTraceEvent` shape check; (2) the parser throws a TypeError on
its line instead of returning `null`; (3) the sibling well-formed line
parses to an event on its own; (4) the pass over the two-line file
returns the error flag with zero events and the ingestor - store and
tracking rows included - completely unchanged. -/
theorem cacheTrace_note_throw_fails_file_pass :
    isCacheTraceEvent (JsVal.obj
        [("ts", JsVal.str "t"), ("seq", JsVal.num 1),
         ("stage", JsVal.str "x"), ("note", JsVal.num 5)]) = true ∧
    parseCacheTraceLine envMixed "\x7bn5\x7d" "p"
      = Except.error "TypeError: slice is not a function" ∧
    producesEvent (parseCacheTraceLine envMixed "\x7bok\x7d" "p") = true ∧
    Ingestor.ingestFile envMixed failNever 0
        (some ("\x7bok\x7d\n\x7bn5\x7d\n".toList)) "p" SourceType.cacheTrace
        ingBase = (ingBase, 0, true) := by
  exact ⟨rfl, rfl, rfl, rfl⟩
